import Mathlib

/-!
# aws-s3-ops: the bucket life-cycle script `s3.go`

A shallow embedding of `s3.go` and the properties of its run.

The program is a straight sequence of calls into the AWS SDK.  The SDK, the
operating system and package `fmt` are not part of the repository, so they
appear here as a `World`: a deterministic state machine that answers every
call the program makes.  Every Go function of `s3.go` that `main` reaches is
a definition of the same name in the monad `Proc`, which threads the state of
the world, records the observable events of the run in order, and
distinguishes the three ways a Go function stops: it returns, the process
leaves through `os.Exit`, or the goroutine panics.

The function `copyObj` of `s3.go` is never called and is not embedded.
-/

namespace S3Ops

/-! ## Values -/

/-- A Go `error`, represented by the text of its `Error()` method. -/
structure GoError where
  text : String
deriving DecidableEq, Repr

/-- An open `*os.File`, identified by its descriptor. -/
abbrev File := Nat

/-- A `time.Time`, represented by the text of its `String()` method, which is
what `fmt.Println` prints for it. -/
structure Time where
  text : String
deriving DecidableEq, Repr

/-- The `s3.Bucket` record as far as the program reads it: `Name *string`. -/
structure Bucket where
  Name : Option String
deriving DecidableEq, Repr

/-- The `s3.ListBucketsOutput` record: `Buckets []*Bucket`. -/
structure ListBucketsOutput where
  Buckets : List Bucket
deriving DecidableEq, Repr

/-- The `s3.Object` record as far as the program reads it.  All four fields
are pointers in the SDK, hence optional. -/
structure Object where
  Key : Option String
  LastModified : Option Time
  Size : Option Int
  StorageClass : Option String
deriving DecidableEq, Repr

/-- The `s3.ListObjectsV2Output` record: `Contents []*Object`. -/
structure ListObjectsV2Output where
  Contents : List Object
deriving DecidableEq, Repr

/-! ## Events of a run -/

/-- A call on the storage client, with its arguments. -/
inductive Call where
  | ListBuckets
  | CreateBucket (bucket region : String)
  | WaitUntilBucketExists (bucket : String)
  | Upload (bucket key : String) (body : File)
  | ListObjectsV2 (bucket : String)
  | DeleteBucket (bucket : String)
  | WaitUntilBucketNotExists (bucket : String)
deriving DecidableEq, Repr

/-- What a run does that can be observed from outside, in order. -/
inductive Event where
  /-- The call `session.NewSessionWithOptions`, with the error it returned if any. -/
  | newSession (err : Option GoError)
  /-- The call `s3.New` with the configuration it was given. -/
  | newClient (region credPath credProfile : String) (maxRetries : Nat)
  /-- A call on the storage client, with the error it returned if any. -/
  | call (c : Call) (err : Option GoError)
  /-- The call `os.Open`, with the handle it returned (`none` when it failed). -/
  | osOpen (name : String) (file : Option File)
  /-- The call `Close` on a file handle. -/
  | close (file : File)
  /-- One write to standard output. -/
  | stdout (text : String)
  /-- One write to standard error. -/
  | stderr (text : String)
deriving DecidableEq, Repr

/-- How a Go function stops. -/
inductive Step (α : Type) where
  /-- It returns a value to its caller. -/
  | ret (a : α)
  /-- The process leaves through `os.Exit code`; deferred calls do not run. -/
  | exit (code : Nat)
  /-- The goroutine panics; deferred calls run while the stack unwinds.  The
  report that the Go runtime then writes is not recorded as an event. -/
  | panic (msg : String)
deriving DecidableEq, Repr

/-- The result of running a piece of the program from a state of the world. -/
structure Res (σ α : Type) where
  step : Step α
  trace : List Event
  state : σ

/-- The result `r` with the events `t` in front of its own. -/
def Res.prepend {σ α : Type} (t : List Event) (r : Res σ α) : Res σ α :=
  ⟨r.step, t ++ r.trace, r.state⟩

/-- A piece of the program: from a state of the world to its result. -/
def Proc (σ α : Type) : Type := σ → Res σ α

/-- Return at once, with no event. -/
def Proc.pure {σ α : Type} (a : α) : Proc σ α :=
  fun s => ⟨Step.ret a, [], s⟩

/-- Sequencing: the second part runs only when the first returns. -/
def Proc.bind {σ α β : Type} (m : Proc σ α) (f : α → Proc σ β) : Proc σ β :=
  fun s =>
    match m s with
    | ⟨Step.ret a, t, s1⟩ => Res.prepend t (f a s1)
    | ⟨Step.exit c, t, s1⟩ => ⟨Step.exit c, t, s1⟩
    | ⟨Step.panic msg, t, s1⟩ => ⟨Step.panic msg, t, s1⟩

instance {σ : Type} : Monad (Proc σ) where
  pure := Proc.pure
  bind := Proc.bind

/-- Record one event. -/
def emit {σ : Type} (e : Event) : Proc σ Unit :=
  fun s => ⟨Step.ret (), [e], s⟩

/-- The call `os.Exit(code)`. -/
def osExit {σ α : Type} (code : Nat) : Proc σ α :=
  fun s => ⟨Step.exit code, [], s⟩

/-- A run-time panic. -/
def goPanic {σ α : Type} (msg : String) : Proc σ α :=
  fun s => ⟨Step.panic msg, [], s⟩

/-- The statement `defer cleanup` followed by `body`: the deferred call runs
when `body` returns or panics, and does not run when the process leaves
through `os.Exit`.  What the deferred call returns is discarded. -/
def defer {σ α : Type} (cleanup : Proc σ Unit) (body : Proc σ α) : Proc σ α :=
  fun s =>
    match body s with
    | ⟨Step.ret a, t, s1⟩ => ⟨Step.ret a, t ++ (cleanup s1).trace, (cleanup s1).state⟩
    | ⟨Step.panic msg, t, s1⟩ => ⟨Step.panic msg, t ++ (cleanup s1).trace, (cleanup s1).state⟩
    | ⟨Step.exit c, t, s1⟩ => ⟨Step.exit c, t, s1⟩

/-- The message of the panic on a nil pointer dereference. -/
def nilDeref : String := "runtime error: invalid memory address or nil pointer dereference"

/-- Dereference of a pointer: a nil pointer panics. -/
def deref {σ α : Type} : Option α → Proc σ α
  | some a => Proc.pure a
  | none => goPanic nilDeref

/-- The indexing `xs[i]` of a slice: out of range panics. -/
def index {σ : Type} (xs : List String) (i : Nat) : Proc σ String :=
  match xs.get? i with
  | some x => Proc.pure x
  | none => goPanic "runtime error: index out of range"

/-! ## The world -/

/-- An operand of a `fmt` formatting call. -/
inductive Arg where
  | str (s : String)
  | err (e : GoError)
deriving DecidableEq, Repr

/-- Everything outside the repository that the program calls.  Each call
answers from the current state and moves to the next state, so a world can
be a scripted fake, a store that remembers buckets, or anything between. -/
structure World (σ : Type) where
  /-- The call `session.NewSessionWithOptions`. -/
  NewSessionWithOptions : σ → Except GoError Unit × σ
  /-- The call `svc.ListBuckets`. -/
  ListBuckets : σ → Except GoError ListBucketsOutput × σ
  /-- The call `svc.CreateBucket` with bucket name and location constraint. -/
  CreateBucket : String → String → σ → Except GoError Unit × σ
  /-- The call `svc.WaitUntilBucketExists`. -/
  WaitUntilBucketExists : String → σ → Except GoError Unit × σ
  /-- The call `uploader.Upload` with bucket, key and body. -/
  Upload : String → String → File → σ → Except GoError Unit × σ
  /-- The call `svc.ListObjectsV2`. -/
  ListObjectsV2 : String → σ → Except GoError ListObjectsV2Output × σ
  /-- The call `svc.DeleteBucket`. -/
  DeleteBucket : String → σ → Except GoError Unit × σ
  /-- The call `svc.WaitUntilBucketNotExists`. -/
  WaitUntilBucketNotExists : String → σ → Except GoError Unit × σ
  /-- The call `os.Open`. -/
  Open : String → σ → Except GoError File × σ
  /-- How package `fmt` expands a format string from its first `%` on, given
  the operands. -/
  verbs : String → List Arg → String

/-- The error of a Go `(result, err)` pair, `none` for `nil`. -/
def errOf {α : Type} : Except GoError α → Option GoError
  | Except.ok _ => none
  | Except.error e => some e

/-- One call on the storage client. -/
def sdk {σ α : Type} (c : Call) (f : σ → Except GoError α × σ) :
    Proc σ (Except GoError α) :=
  fun s => ⟨Step.ret (f s).1, [Event.call c (errOf (f s).1)], (f s).2⟩

/-- The call `os.Open(name)`. -/
def osOpen {σ : Type} (w : World σ) (name : String) : Proc σ (Except GoError File) :=
  fun s =>
    match w.Open name s with
    | (Except.ok f, s1) => ⟨Step.ret (Except.ok f), [Event.osOpen name (some f)], s1⟩
    | (Except.error e, s1) => ⟨Step.ret (Except.error e), [Event.osOpen name none], s1⟩

/-! ## Package `fmt` -/

/-- The text `fmt.Sprintf(format, args...)`: the format is copied through up
to its first `%`; the rest is expanded by `verbs`.  A format without `%` and
without operands is printed as it is. -/
def Sprintf (verbs : String → List Arg → String) (format : String) (args : List Arg) :
    String :=
  let lit := format.toList.takeWhile (fun c => c ≠ '%')
  let rest := format.toList.dropWhile (fun c => c ≠ '%')
  if rest = [] ∧ args = [] then String.mk lit
  else String.mk lit ++ verbs (String.mk rest) args

/-- The call `fmt.Printf(format, args...)`: one write to standard output. -/
def Printf {σ : Type} (w : World σ) (format : String) (args : List Arg) : Proc σ Unit :=
  emit (Event.stdout (Sprintf w.verbs format args))

/-- The text `fmt.Sprintln(operands...)` for operands already rendered:
a space between operands, a newline at the end. -/
def Sprintln (operands : List String) : String :=
  " ".intercalate operands ++ "\n"

/-- The call `fmt.Println(operands...)`: one write to standard output. -/
def Println {σ : Type} (operands : List String) : Proc σ Unit :=
  emit (Event.stdout (Sprintln operands))

/-- The helper `aws.StringValue`: the empty string for a nil pointer. -/
def aws.StringValue : Option String → String
  | some s => s
  | none => ""

/-! ## The program -/

/-- The constant `Region`. -/
def Region : String := "ap-southeast-2"

/-- The constant `CredPath`. -/
def CredPath : String := "/home/jeff/.aws/credentials"

/-- The constant `CredProfile`. -/
def CredProfile : String := "aws-cred-profile"

/-- The function `exitErrorf`: the formatted message and a newline go to
standard error, then the process exits with status 1. -/
def exitErrorf {σ α : Type} (w : World σ) (msg : String) (args : List Arg) : Proc σ α :=
  Proc.bind (emit (Event.stderr (Sprintf w.verbs (msg ++ "\n") args)))
    (fun _ => osExit 1)

/-- The loop `for _, b := range result.Buckets` of `listMyBuckets`. -/
def printBuckets {σ : Type} (w : World σ) : List Bucket → Proc σ Unit
  | [] => Proc.pure ()
  | b :: bs =>
    Proc.bind (Printf w (aws.StringValue b.Name ++ "\n") [])
      (fun _ => printBuckets w bs)

/-- The function `listMyBuckets`. -/
def listMyBuckets {σ : Type} (w : World σ) : Proc σ Unit := do
  let r ← sdk Call.ListBuckets w.ListBuckets
  match r with
  | Except.error err => exitErrorf w "Unable to list buckets, %v" [Arg.err err]
  | Except.ok result =>
    Println ["My buckets now are:"]
    printBuckets w result.Buckets
    Printf w "\n" []

/-- The function `createMyBucket`.  The error of `WaitUntilBucketExists` is
assigned to `err` and the function returns without reading it. -/
def createMyBucket {σ : Type} (w : World σ) (bucketName region : String) : Proc σ Unit := do
  Printf w ("\nCreating a new bucket named '" ++ bucketName ++ "'...\n\n") []
  let r ← sdk (Call.CreateBucket bucketName region) (w.CreateBucket bucketName region)
  match r with
  | Except.error err => exitErrorf w "Unable to create bucket, %v" [Arg.err err]
  | Except.ok _ =>
    let _err ← sdk (Call.WaitUntilBucketExists bucketName) (w.WaitUntilBucketExists bucketName)
    pure ()

/-- The function `deleteMyBucket`.  The error of `WaitUntilBucketNotExists`
is assigned to `err` and the function returns without reading it. -/
def deleteMyBucket {σ : Type} (w : World σ) (bucketName : String) : Proc σ Unit := do
  Printf w ("\nDeleting the bucket named '" ++ bucketName ++ "'...\n\n") []
  let r ← sdk (Call.DeleteBucket bucketName) (w.DeleteBucket bucketName)
  match r with
  | Except.error err => exitErrorf w "Unable to delete bucket, %v" [Arg.err err]
  | Except.ok _ =>
    let _err ← sdk (Call.WaitUntilBucketNotExists bucketName)
      (w.WaitUntilBucketNotExists bucketName)
    pure ()

/-- The function `uploadObj`. -/
def uploadObj {σ : Type} (w : World σ) (bucket filename : String) : Proc σ Unit := do
  let r ← osOpen w filename
  match r with
  | Except.error err => exitErrorf w "Unable to open file %q, %v" [Arg.err err]
  | Except.ok file =>
    defer (emit (Event.close file)) do
      let r ← sdk (Call.Upload bucket filename file) (w.Upload bucket filename file)
      match r with
      | Except.error err =>
        exitErrorf w "Unable to upload %q to %q, %v"
          [Arg.str filename, Arg.str bucket, Arg.err err]
      | Except.ok _ =>
        Printf w "Successfully uploaded %q to %q\n" [Arg.str filename, Arg.str bucket]

/-- The body of the loop `for _, item := range resp.Contents` of `listObj`.
Each operand is dereferenced before its `Println` is called. -/
def printObject {σ : Type} (item : Object) : Proc σ Unit := do
  let key ← deref item.Key
  Println ["Name:         ", key]
  let lastModified ← deref item.LastModified
  Println ["Last modified:", lastModified.text]
  let size ← deref item.Size
  Println ["Size:         ", toString size]
  let storageClass ← deref item.StorageClass
  Println ["Storage class:", storageClass]
  Println [""]

/-- The loop `for _, item := range resp.Contents` of `listObj`. -/
def printObjects {σ : Type} : List Object → Proc σ Unit
  | [] => Proc.pure ()
  | item :: items => Proc.bind (printObject item) (fun _ => printObjects items)

/-- The function `listObj`. -/
def listObj {σ : Type} (w : World σ) (bucket : String) : Proc σ Unit := do
  let r ← sdk (Call.ListObjectsV2 bucket) (w.ListObjectsV2 bucket)
  match r with
  | Except.error err =>
    exitErrorf w "Unable to list items in bucket %q, %v" [Arg.str bucket, Arg.err err]
  | Except.ok resp =>
    printObjects resp.Contents
    Println ["Found", toString resp.Contents.length, "items in bucket", bucket]
    Println [""]

/-- The expression `session.Must(session.NewSessionWithOptions(...))`:
`Must` panics with the error when there is one. -/
def sessionMust {σ : Type} (w : World σ) : Proc σ Unit :=
  fun s =>
    match w.NewSessionWithOptions s with
    | (Except.ok _, s1) => ⟨Step.ret (), [Event.newSession none], s1⟩
    | (Except.error e, s1) => ⟨Step.panic e.text, [Event.newSession (some e)], s1⟩

/-- The function `main`, on the argument vector `os.Args` (program name
first). -/
def main {σ : Type} (w : World σ) (osArgs : List String) : Proc σ Unit := do
  if osArgs.length < 3 then
    Printf w ("Usage: go run s3.go <the bucket name> <the file name>\n" ++
      "Example: go run s3.go my-test-bucket my-upload-file\n") []
    osExit 1
  sessionMust w
  emit (Event.newClient Region CredPath CredProfile 5)
  listMyBuckets w
  createMyBucket w (← index osArgs 1) Region
  uploadObj w (← index osArgs 1) (← index osArgs 2)
  listObj w (← index osArgs 1)
  listMyBuckets w
  deleteMyBucket w (← index osArgs 1)
  listMyBuckets w

/-! ## Observations on a run -/

/-- The exit status of the process: 0 when `main` returns, the argument of
`os.Exit`, 2 after a panic. -/
def exitStatus {α : Type} : Step α → Nat
  | Step.ret _ => 0
  | Step.exit code => code
  | Step.panic _ => 2

/-- The client calls of a trace with their errors, in order. -/
def calls : List Event → List (Call × Option GoError)
  | [] => []
  | Event.call c e :: t => (c, e) :: calls t
  | _ :: t => calls t


/-- The texts written to standard output, in order. -/
def stdoutOf : List Event → List String
  | [] => []
  | Event.stdout text :: t => text :: stdoutOf t
  | _ :: t => stdoutOf t

/-- The texts written to standard error, in order. -/
def stderrOf : List Event → List String
  | [] => []
  | Event.stderr text :: t => text :: stderrOf t
  | _ :: t => stderrOf t

/-- The file handles closed, in order. -/
def closes : List Event → List File
  | [] => []
  | Event.close file :: t => file :: closes t
  | _ :: t => closes t

/-- The five lines `listObj` prints for an entry whose four fields are
present. -/
def Object.lines : Object → List String
  | ⟨some key, some lastModified, some size, some storageClass⟩ =>
    ["Name:          " ++ key ++ "\n",
     "Last modified: " ++ lastModified.text ++ "\n",
     "Size:          " ++ toString size ++ "\n",
     "Storage class: " ++ storageClass ++ "\n",
     "\n"]
  | _ => []

/-- The lines of the entries, entry after entry, in the order of the list. -/
def entriesLines : List Object → List String
  | [] => []
  | o :: os => o.lines ++ entriesLines os

/-- The text `needle` occurs in the text `hay`. -/
def containsText (hay needle : String) : Prop :=
  needle.toList <:+: hay.toList

/-- The usage message of `main`. -/
def usage : String :=
  "Usage: go run s3.go <the bucket name> <the file name>\n" ++
    "Example: go run s3.go my-test-bucket my-upload-file\n"

/-! ## The decision tree of `main`

The run of `main` on three or more arguments, written out as one tree of case
distinctions on the answers of the world.  `main_eq_mainTree` proves that it
is the run of `main`; the properties of `main` are read off its leaves. -/

/-- All four fields of the entry are present. -/
def Object.complete (o : Object) : Bool :=
  o.Key.isSome && o.LastModified.isSome && o.Size.isSome && o.StorageClass.isSome

/-- What `printObject` writes before it returns or panics. -/
def objectOut (o : Object) : List String :=
  match o.Key with
  | none => []
  | some key =>
    Sprintln ["Name:         ", key] ::
    match o.LastModified with
    | none => []
    | some t =>
      Sprintln ["Last modified:", t.text] ::
      match o.Size with
      | none => []
      | some size =>
        Sprintln ["Size:         ", toString size] ::
        match o.StorageClass with
        | none => []
        | some c => [Sprintln ["Storage class:", c], Sprintln [""]]

/-- What the loop of `listObj` writes before it ends or panics. -/
def objectsOut : List Object → List String
  | [] => []
  | o :: os => objectOut o ++ (if o.complete then objectsOut os else [])

/-- How the loop of `listObj` stops. -/
def objectsStep (items : List Object) : Step Unit :=
  if items.all Object.complete then Step.ret () else Step.panic nilDeref

/-- The two lines `listObj` writes after its loop. -/
@[irreducible]
def objectsTail (n : String) (resp : ListObjectsV2Output) : List String :=
  [Sprintln ["Found", toString resp.Contents.length, "items in bucket", n], Sprintln [""]]

/-- What `listMyBuckets` writes after a successful `ListBuckets`. -/
@[irreducible]
def bucketsOut {σ : Type} (w : World σ) (r : ListBucketsOutput) : List String :=
  Sprintln ["My buckets now are:"] ::
    (r.Buckets.map (fun b => Sprintf w.verbs (aws.StringValue b.Name ++ "\n") []) ++
      [Sprintf w.verbs "\n" []])

/-- The text `exitErrorf` writes to standard error. -/
def errText {σ : Type} (w : World σ) (msg : String) (args : List Arg) : String :=
  Sprintf w.verbs (msg ++ "\n") args

/-- The first line of `createMyBucket`. -/
def creating {σ : Type} (w : World σ) (n : String) : String :=
  Sprintf w.verbs ("\nCreating a new bucket named '" ++ n ++ "'...\n\n") []

/-- The first line of `deleteMyBucket`. -/
def deleting {σ : Type} (w : World σ) (n : String) : String :=
  Sprintf w.verbs ("\nDeleting the bucket named '" ++ n ++ "'...\n\n") []

/-- The last line of `uploadObj`. -/
def uploaded {σ : Type} (w : World σ) (n f : String) : String :=
  Sprintf w.verbs "Successfully uploaded %q to %q\n" [Arg.str f, Arg.str n]

/-- The run of `main` on the bucket name `n` and the file name `f`, as a tree
of case distinctions on the answers of the world. -/
def mainTree {σ : Type} (w : World σ) (n f : String) (s : σ) : Res σ Unit :=
  match w.NewSessionWithOptions s with
  | (Except.error e, s0) => ⟨Step.panic e.text, [Event.newSession (some e)], s0⟩
  | (Except.ok _, s0) =>
    Res.prepend [Event.newSession none, Event.newClient Region CredPath CredProfile 5]
    (match w.ListBuckets s0 with
    | (Except.error e, s1) =>
      ⟨Step.exit 1, [Event.call Call.ListBuckets (some e),
        Event.stderr (errText w "Unable to list buckets, %v" [Arg.err e])], s1⟩
    | (Except.ok r1, s1) =>
      Res.prepend (Event.call Call.ListBuckets none :: (bucketsOut w r1).map Event.stdout)
      (match w.CreateBucket n Region s1 with
      | (Except.error e, s2) =>
        ⟨Step.exit 1, [Event.stdout (creating w n),
          Event.call (Call.CreateBucket n Region) (some e),
          Event.stderr (errText w "Unable to create bucket, %v" [Arg.err e])], s2⟩
      | (Except.ok _, s2) =>
        Res.prepend [Event.stdout (creating w n), Event.call (Call.CreateBucket n Region) none,
          Event.call (Call.WaitUntilBucketExists n) (errOf (w.WaitUntilBucketExists n s2).1)]
        (match w.Open f (w.WaitUntilBucketExists n s2).2 with
        | (Except.error e, s4) =>
          ⟨Step.exit 1, [Event.osOpen f none,
            Event.stderr (errText w "Unable to open file %q, %v" [Arg.err e])], s4⟩
        | (Except.ok h, s4) =>
          match w.Upload n f h s4 with
          | (Except.error e, s5) =>
            ⟨Step.exit 1, [Event.osOpen f (some h), Event.call (Call.Upload n f h) (some e),
              Event.stderr (errText w "Unable to upload %q to %q, %v"
                [Arg.str f, Arg.str n, Arg.err e])], s5⟩
          | (Except.ok _, s5) =>
            Res.prepend [Event.osOpen f (some h), Event.call (Call.Upload n f h) none,
              Event.stdout (uploaded w n f), Event.close h]
            (match w.ListObjectsV2 n s5 with
            | (Except.error e, s6) =>
              ⟨Step.exit 1, [Event.call (Call.ListObjectsV2 n) (some e),
                Event.stderr (errText w "Unable to list items in bucket %q, %v"
                  [Arg.str n, Arg.err e])], s6⟩
            | (Except.ok resp, s6) =>
              if resp.Contents.all Object.complete then
                Res.prepend (Event.call (Call.ListObjectsV2 n) none ::
                  (objectsOut resp.Contents ++ objectsTail n resp).map Event.stdout)
                (match w.ListBuckets s6 with
                | (Except.error e, s7) =>
                  ⟨Step.exit 1, [Event.call Call.ListBuckets (some e),
                    Event.stderr (errText w "Unable to list buckets, %v" [Arg.err e])], s7⟩
                | (Except.ok r2, s7) =>
                  Res.prepend
                    (Event.call Call.ListBuckets none :: (bucketsOut w r2).map Event.stdout)
                  (match w.DeleteBucket n s7 with
                  | (Except.error e, s8) =>
                    ⟨Step.exit 1, [Event.stdout (deleting w n),
                      Event.call (Call.DeleteBucket n) (some e),
                      Event.stderr (errText w "Unable to delete bucket, %v" [Arg.err e])], s8⟩
                  | (Except.ok _, s8) =>
                    Res.prepend [Event.stdout (deleting w n),
                      Event.call (Call.DeleteBucket n) none,
                      Event.call (Call.WaitUntilBucketNotExists n)
                        (errOf (w.WaitUntilBucketNotExists n s8).1)]
                    (match w.ListBuckets (w.WaitUntilBucketNotExists n s8).2 with
                    | (Except.error e, s10) =>
                      ⟨Step.exit 1, [Event.call Call.ListBuckets (some e),
                        Event.stderr (errText w "Unable to list buckets, %v" [Arg.err e])], s10⟩
                    | (Except.ok r3, s10) =>
                      ⟨Step.ret (),
                        Event.call Call.ListBuckets none :: (bucketsOut w r3).map Event.stdout,
                        s10⟩)))
              else
                ⟨Step.panic nilDeref, Event.call (Call.ListObjectsV2 n) none ::
                  (objectsOut resp.Contents).map Event.stdout, s6⟩))))

/-! ## Worlds in which every call succeeds -/

/-- The session is built, and every call on the storage client returns a nil
error, in every state of the world. -/
structure World.Succeeds {σ : Type} (w : World σ) : Prop where
  session : ∀ s, ∃ s1, w.NewSessionWithOptions s = (Except.ok (), s1)
  listBuckets : ∀ s, ∃ r s1, w.ListBuckets s = (Except.ok r, s1)
  createBucket : ∀ n r s, ∃ s1, w.CreateBucket n r s = (Except.ok (), s1)
  waitUntilBucketExists : ∀ n s, errOf (w.WaitUntilBucketExists n s).1 = none
  upload : ∀ b k h s, ∃ s1, w.Upload b k h s = (Except.ok (), s1)
  listObjectsV2 : ∀ n s, ∃ r s1, w.ListObjectsV2 n s = (Except.ok r, s1)
  deleteBucket : ∀ n s, ∃ s1, w.DeleteBucket n s = (Except.ok (), s1)
  waitUntilBucketNotExists : ∀ n s, errOf (w.WaitUntilBucketNotExists n s).1 = none

/-- The local file `f` opens, in every state of the world. -/
def World.Opens {σ : Type} (w : World σ) (f : String) : Prop :=
  ∀ s, ∃ h s1, w.Open f s = (Except.ok h, s1)

/-- The nine client calls of a complete run on bucket `n`, file `f` opened as
`h`, with the errors `e1` and `e2` of the two waits. -/
def nineCalls (n f : String) (h : File) (e1 e2 : Option GoError) :
    List (Call × Option GoError) :=
  [(Call.ListBuckets, none), (Call.CreateBucket n "ap-southeast-2", none),
   (Call.WaitUntilBucketExists n, e1), (Call.Upload n f h, none),
   (Call.ListObjectsV2 n, none), (Call.ListBuckets, none), (Call.DeleteBucket n, none),
   (Call.WaitUntilBucketNotExists n, e2), (Call.ListBuckets, none)]

/-! ## Scripted worlds for examples -/

/-- A scripted world.  Its state counts the client calls made so far; the
call number `i` (from 0) fails exactly when `fails i`; `ListObjectsV2`
answers with `objs`; `os.Open` succeeds with descriptor 3 exactly when
`openOk`. -/
def scripted (fails : Nat → Bool) (objs : List Object) (openOk : Bool) : World Nat where
  NewSessionWithOptions := fun s => (Except.ok (), s)
  ListBuckets := fun s =>
    (if fails s then Except.error ⟨"RequestError"⟩ else Except.ok ⟨[⟨some "other"⟩]⟩, s + 1)
  CreateBucket := fun _ _ s =>
    (if fails s then Except.error ⟨"BucketAlreadyExists"⟩ else Except.ok (), s + 1)
  WaitUntilBucketExists := fun _ s =>
    (if fails s then Except.error ⟨"ResourceNotReady"⟩ else Except.ok (), s + 1)
  Upload := fun _ _ _ s =>
    (if fails s then Except.error ⟨"AccessDenied"⟩ else Except.ok (), s + 1)
  ListObjectsV2 := fun _ s =>
    (if fails s then Except.error ⟨"NoSuchBucket"⟩ else Except.ok ⟨objs⟩, s + 1)
  DeleteBucket := fun _ s =>
    (if fails s then Except.error ⟨"BucketNotEmpty"⟩ else Except.ok (), s + 1)
  WaitUntilBucketNotExists := fun _ s =>
    (if fails s then Except.error ⟨"ResourceNotReady"⟩ else Except.ok (), s + 1)
  Open := fun _ s =>
    (if openOk then Except.ok 3 else Except.error ⟨"no such file or directory"⟩, s)
  verbs := fun rest _ => rest

/-- An entry with all four fields present. -/
def fullObject : Object :=
  ⟨some "f", some ⟨"2020-01-01 00:00:00 +0000 UTC"⟩, some 5, some "STANDARD"⟩

/-- An entry without storage class. -/
def gapObject : Object :=
  ⟨some "f", some ⟨"2020-01-01 00:00:00 +0000 UTC"⟩, some 5, none⟩

/-! ## The in-memory storage model -/

/-- Modelled from the spec: the in-memory store, a set of buckets by name,
each owning a set of object keys.  The repository has no such store; the
properties that speak of one are stated against this one. -/
abbrev Store := List (String × List String)

/-- The store has a bucket named `n`. -/
def Store.hasBucket (st : Store) (n : String) : Bool :=
  st.any (fun b => b.1 == n)

/-- Modelled from the spec: a successful create adds the bucket, empty. -/
def Store.create (st : Store) (n : String) : Store :=
  (n, []) :: st

/-- Modelled from the spec: a successful upload adds the object to its
bucket. -/
def Store.put (st : Store) (n key : String) : Store :=
  st.map (fun b => if b.1 = n then (b.1, key :: b.2) else b)

/-- Modelled from the spec: a successful delete removes the bucket, with the
objects it owns. -/
def Store.delete (st : Store) (n : String) : Store :=
  st.filter (fun b => b.1 ≠ n)

/-- Modelled from the spec: a world over `Store` is an in-memory storage model
when a successful create adds the bucket, a successful upload adds the
object, a successful delete removes the bucket, and no other call changes the
store.  Which calls fail is left to the world. -/
structure InMemory (w : World Store) : Prop where
  session : ∀ s, (w.NewSessionWithOptions s).2 = s
  listBuckets : ∀ s, (w.ListBuckets s).2 = s
  createBucket : ∀ n r s, errOf (w.CreateBucket n r s).1 = none →
    (w.CreateBucket n r s).2 = Store.create s n
  waitUntilBucketExists : ∀ n s, (w.WaitUntilBucketExists n s).2 = s
  osOpen : ∀ f s, (w.Open f s).2 = s
  upload : ∀ n k h s, errOf (w.Upload n k h s).1 = none →
    (w.Upload n k h s).2 = Store.put s n k
  listObjectsV2 : ∀ n s, (w.ListObjectsV2 n s).2 = s
  deleteBucket : ∀ n s, errOf (w.DeleteBucket n s).1 = none →
    (w.DeleteBucket n s).2 = Store.delete s n
  waitUntilBucketNotExists : ∀ n s, (w.WaitUntilBucketNotExists n s).2 = s

/-- The bucket `n` of the store owns no object. -/
def Store.isEmptyBucket (st : Store) (n : String) : Bool :=
  match st.lookup n with
  | some keys => keys.isEmpty
  | none => true

/-- Modelled from the spec: an in-memory storage model.  Create fails on a
name that is taken; upload, listing and delete fail on a bucket that is
missing; when `strict`, delete also fails on a bucket that still owns
objects, otherwise the bucket is deleted with them; the files in `files` can
be opened. -/
def memWorld (strict : Bool) (files : List String) : World Store where
  NewSessionWithOptions := fun s => (Except.ok (), s)
  ListBuckets := fun s => (Except.ok ⟨s.map (fun b => ⟨some b.1⟩)⟩, s)
  CreateBucket := fun n _ s =>
    if Store.hasBucket s n then (Except.error ⟨"BucketAlreadyExists"⟩, s)
    else (Except.ok (), Store.create s n)
  WaitUntilBucketExists := fun n s =>
    (if Store.hasBucket s n then Except.ok () else Except.error ⟨"ResourceNotReady"⟩, s)
  Upload := fun n k _ s =>
    if Store.hasBucket s n then (Except.ok (), Store.put s n k)
    else (Except.error ⟨"NoSuchBucket"⟩, s)
  ListObjectsV2 := fun n s =>
    match s.lookup n with
    | some keys =>
      (Except.ok ⟨keys.map (fun k =>
        ⟨some k, some ⟨"2020-01-01 00:00:00 +0000 UTC"⟩, some 0, some "STANDARD"⟩)⟩, s)
    | none => (Except.error ⟨"NoSuchBucket"⟩, s)
  DeleteBucket := fun n s =>
    if Store.hasBucket s n then
      if strict && !Store.isEmptyBucket s n then (Except.error ⟨"BucketNotEmpty"⟩, s)
      else (Except.ok (), Store.delete s n)
    else (Except.error ⟨"NoSuchBucket"⟩, s)
  WaitUntilBucketNotExists := fun n s =>
    (if Store.hasBucket s n then Except.error ⟨"ResourceNotReady"⟩ else Except.ok (), s)
  Open := fun f s =>
    (if f ∈ files then Except.ok 3 else Except.error ⟨"no such file or directory"⟩, s)
  verbs := fun rest _ => rest

/-! ## Lemmas on traces and results -/

/-- The calls of a trace in two parts are the calls of the parts. -/
theorem calls_append (a b : List Event) : calls (a ++ b) = calls a ++ calls b := by
  induction a with
  | nil => rfl
  | cons e t ih => cases e <;> simp [calls, ih]

/-- Writes to standard output are no client calls. -/
theorem calls_stdout (l : List String) : calls (l.map Event.stdout) = [] := by
  induction l with
  | nil => rfl
  | cons e t ih => simp [calls, ih]

/-- The texts of a list of writes to standard output. -/
theorem stdoutOf_stdout (l : List String) : stdoutOf (l.map Event.stdout) = l := by
  induction l with
  | nil => rfl
  | cons e t ih => simp [stdoutOf, ih]

/-- When an element of a list is not among all but the last, nothing follows
it. -/
theorem nil_of_not_mem_dropLast {α : Type} {l pre post : List α} {x : α}
    (h : l = pre ++ x :: post) (hx : x ∉ l.dropLast) : post = [] := by
  by_contra hne
  apply hx
  subst h
  rw [List.dropLast_append_of_ne_nil _ (by simp), List.dropLast_cons_of_ne_nil hne]
  simp

/-! ## Package `fmt` -/

/-- A format without `%` and without operands is printed as it is. -/
theorem Sprintf_plain (verbs : String → List Arg → String) (format : String)
    (h : ∀ c ∈ format.toList, c ≠ '%') : Sprintf verbs format [] = format := by
  have h1 : format.toList.takeWhile (fun c => c ≠ '%') = format.toList := by
    rw [List.takeWhile_eq_self_iff]
    intro c hc
    simpa using h c hc
  have h2 : format.toList.dropWhile (fun c => c ≠ '%') = [] := by
    rw [List.dropWhile_eq_nil_iff]
    intro c hc
    simpa using h c hc
  simp only [Sprintf, h1, h2, and_self, if_true]
  rfl

/-- The formatted text starts with the format up to its first `%`. -/
theorem Sprintf_literal (verbs : String → List Arg → String) (format : String)
    (args : List Arg) :
    ∃ tail : List Char, (Sprintf verbs format args).toList =
      format.toList.takeWhile (fun c => c ≠ '%') ++ tail := by
  simp only [Sprintf]
  split
  · exact ⟨[], by simp⟩
  · exact ⟨(verbs (String.mk (format.toList.dropWhile (fun c => c ≠ '%'))) args).toList,
      by simp [String.toList]⟩

/-! ## The run of each function -/

/-- The run of `printObject`: it returns on a complete entry and panics
otherwise, having written `objectOut`. -/
theorem printObject_run {σ : Type} (o : Object) (s : σ) :
    printObject o s =
      ⟨if o.complete then Step.ret () else Step.panic nilDeref,
        (objectOut o).map Event.stdout, s⟩ := by
  rcases o with ⟨k, t, z, c⟩
  cases k <;> cases t <;> cases z <;> cases c <;>
    simp [printObject, bind, Proc.bind, deref, goPanic, Proc.pure, Println, emit, Res.prepend,
      objectOut, Object.complete]

/-- The run of the loop of `listObj`. -/
theorem printObjects_run {σ : Type} (items : List Object) (s : σ) :
    printObjects items s = ⟨objectsStep items, (objectsOut items).map Event.stdout, s⟩ := by
  induction items with
  | nil => rfl
  | cons o os ih =>
    by_cases h : o.complete <;>
      simp [printObjects, Proc.bind, printObject_run, h, ih, objectsStep, objectsOut, Res.prepend]

/-- The run of the loop of `listMyBuckets`: one line per bucket. -/
theorem printBuckets_run {σ : Type} (w : World σ) (bs : List Bucket) (s : σ) :
    printBuckets w bs s =
      ⟨Step.ret (),
        (bs.map (fun b => Sprintf w.verbs (aws.StringValue b.Name ++ "\n") [])).map Event.stdout,
        s⟩ := by
  induction bs with
  | nil => rfl
  | cons b bs ih => simp [printBuckets, Proc.bind, Printf, emit, ih, Res.prepend]

/-- The run of `listMyBuckets`, by the answer of `ListBuckets`. -/
theorem listMyBuckets_run {σ : Type} (w : World σ) (s : σ) :
    listMyBuckets w s =
      match w.ListBuckets s with
      | (Except.error e, s1) =>
        ⟨Step.exit 1, [Event.call Call.ListBuckets (some e),
          Event.stderr (errText w "Unable to list buckets, %v" [Arg.err e])], s1⟩
      | (Except.ok r, s1) =>
        ⟨Step.ret (), Event.call Call.ListBuckets none :: (bucketsOut w r).map Event.stdout, s1⟩ := by
  rcases h : w.ListBuckets s with ⟨_ | _, s1⟩ <;>
    simp [listMyBuckets, bind, Proc.bind, sdk, h, exitErrorf, emit, osExit, Res.prepend, errOf,
      Println, Printf, printBuckets_run, bucketsOut, errText]

/-- The run of `createMyBucket`, by the answer of `CreateBucket`; the answer of
the wait only shows in the trace. -/
theorem createMyBucket_run {σ : Type} (w : World σ) (n r : String) (s : σ) :
    createMyBucket w n r s =
      match w.CreateBucket n r s with
      | (Except.error e, s1) =>
        ⟨Step.exit 1, [Event.stdout (creating w n), Event.call (Call.CreateBucket n r) (some e),
          Event.stderr (errText w "Unable to create bucket, %v" [Arg.err e])], s1⟩
      | (Except.ok _, s1) =>
        ⟨Step.ret (), [Event.stdout (creating w n), Event.call (Call.CreateBucket n r) none,
          Event.call (Call.WaitUntilBucketExists n) (errOf (w.WaitUntilBucketExists n s1).1)],
          (w.WaitUntilBucketExists n s1).2⟩ := by
  rcases h : w.CreateBucket n r s with ⟨_ | _, s1⟩ <;>
    simp [createMyBucket, bind, pure, Proc.pure, Proc.bind, sdk, h, exitErrorf, emit, osExit,
      Res.prepend, errOf, Printf, creating, errText]

/-- The run of `deleteMyBucket`, by the answer of `DeleteBucket`; the answer of
the wait only shows in the trace. -/
theorem deleteMyBucket_run {σ : Type} (w : World σ) (n : String) (s : σ) :
    deleteMyBucket w n s =
      match w.DeleteBucket n s with
      | (Except.error e, s1) =>
        ⟨Step.exit 1, [Event.stdout (deleting w n), Event.call (Call.DeleteBucket n) (some e),
          Event.stderr (errText w "Unable to delete bucket, %v" [Arg.err e])], s1⟩
      | (Except.ok _, s1) =>
        ⟨Step.ret (), [Event.stdout (deleting w n), Event.call (Call.DeleteBucket n) none,
          Event.call (Call.WaitUntilBucketNotExists n)
            (errOf (w.WaitUntilBucketNotExists n s1).1)],
          (w.WaitUntilBucketNotExists n s1).2⟩ := by
  rcases h : w.DeleteBucket n s with ⟨_ | _, s1⟩ <;>
    simp [deleteMyBucket, bind, pure, Proc.pure, Proc.bind, sdk, h, exitErrorf, emit, osExit,
      Res.prepend, errOf, Printf, deleting, errText]

/-- The run of `uploadObj`, by the answers of `os.Open` and `Upload`; the
handle is closed on the returning path only. -/
theorem uploadObj_run {σ : Type} (w : World σ) (n f : String) (s : σ) :
    uploadObj w n f s =
      match w.Open f s with
      | (Except.error e, s1) =>
        ⟨Step.exit 1, [Event.osOpen f none,
          Event.stderr (errText w "Unable to open file %q, %v" [Arg.err e])], s1⟩
      | (Except.ok h, s1) =>
        match w.Upload n f h s1 with
        | (Except.error e, s2) =>
          ⟨Step.exit 1, [Event.osOpen f (some h), Event.call (Call.Upload n f h) (some e),
            Event.stderr (errText w "Unable to upload %q to %q, %v"
              [Arg.str f, Arg.str n, Arg.err e])], s2⟩
        | (Except.ok _, s2) =>
          ⟨Step.ret (), [Event.osOpen f (some h), Event.call (Call.Upload n f h) none,
            Event.stdout (uploaded w n f), Event.close h], s2⟩ := by
  rcases h : w.Open f s with ⟨_ | hd, s1⟩
  · simp [uploadObj, bind, Proc.bind, osOpen, h, exitErrorf, emit, osExit, Res.prepend, errText]
  · rcases h2 : w.Upload n f hd s1 with ⟨_ | _, s2⟩ <;>
      simp [uploadObj, bind, Proc.bind, osOpen, h, h2, sdk, defer, exitErrorf, emit, osExit,
        Res.prepend, errText, errOf, Printf, uploaded]

/-- The run of `listObj`, by the answer of `ListObjectsV2` and the entries. -/
theorem listObj_run {σ : Type} (w : World σ) (n : String) (s : σ) :
    listObj w n s =
      match w.ListObjectsV2 n s with
      | (Except.error e, s1) =>
        ⟨Step.exit 1, [Event.call (Call.ListObjectsV2 n) (some e),
          Event.stderr (errText w "Unable to list items in bucket %q, %v"
            [Arg.str n, Arg.err e])], s1⟩
      | (Except.ok resp, s1) =>
        if resp.Contents.all Object.complete then
          ⟨Step.ret (), Event.call (Call.ListObjectsV2 n) none ::
            (objectsOut resp.Contents ++ objectsTail n resp).map Event.stdout, s1⟩
        else
          ⟨Step.panic nilDeref, Event.call (Call.ListObjectsV2 n) none ::
            (objectsOut resp.Contents).map Event.stdout, s1⟩ := by
  rcases h : w.ListObjectsV2 n s with ⟨_ | resp, s1⟩
  · simp [listObj, bind, Proc.bind, sdk, h, exitErrorf, emit, osExit, Res.prepend, errText, errOf]
  · by_cases hc : resp.Contents.all Object.complete <;>
      simp [listObj, bind, Proc.bind, sdk, h, Res.prepend, errOf, printObjects_run, objectsStep,
        hc, Println, emit, objectsTail]

/-! ## The run of `main` -/

/-- On three or more arguments the run of `main` is its decision tree. -/
theorem main_eq_mainTree {σ : Type} (w : World σ) (p n f : String) (rest : List String)
    (s : σ) : main w (p :: n :: f :: rest) s = mainTree w n f s := by
  have hlen : ¬ (p :: n :: f :: rest).length < 3 := by simp
  simp only [main, hlen, if_false, index, List.get?, bind, pure, mainTree]
  rcases h0 : w.NewSessionWithOptions s with ⟨e | u, s0⟩
  · simp [Proc.bind, Proc.pure, sessionMust, h0, Res.prepend]
  rcases h1 : w.ListBuckets s0 with ⟨e | r1, s1⟩
  · simp [Proc.bind, Proc.pure, sessionMust, emit, Res.prepend, listMyBuckets_run, h0, h1]
  rcases h2 : w.CreateBucket n Region s1 with ⟨e | u, s2⟩
  · simp [Proc.bind, Proc.pure, sessionMust, emit, Res.prepend, listMyBuckets_run,
      createMyBucket_run, h0, h1, h2]
  rcases h4 : w.Open f (w.WaitUntilBucketExists n s2).2 with ⟨e | hd, s4⟩
  · simp [Proc.bind, Proc.pure, sessionMust, emit, Res.prepend, listMyBuckets_run,
      createMyBucket_run, uploadObj_run, h0, h1, h2, h4]
  rcases h5 : w.Upload n f hd s4 with ⟨e | u, s5⟩
  · simp [Proc.bind, Proc.pure, sessionMust, emit, Res.prepend, listMyBuckets_run,
      createMyBucket_run, uploadObj_run, h0, h1, h2, h4, h5]
  rcases h6 : w.ListObjectsV2 n s5 with ⟨e | resp, s6⟩
  · simp [Proc.bind, Proc.pure, sessionMust, emit, Res.prepend, listMyBuckets_run,
      createMyBucket_run, uploadObj_run, listObj_run, h0, h1, h2, h4, h5, h6]
  by_cases hc : resp.Contents.all Object.complete
  swap
  · simp [Proc.bind, Proc.pure, sessionMust, emit, Res.prepend, listMyBuckets_run,
      createMyBucket_run, uploadObj_run, listObj_run, h0, h1, h2, h4, h5, h6, hc]
  rcases h7 : w.ListBuckets s6 with ⟨e | r2, s7⟩
  · simp [Proc.bind, Proc.pure, sessionMust, emit, Res.prepend, listMyBuckets_run,
      createMyBucket_run, uploadObj_run, listObj_run, h0, h1, h2, h4, h5, h6, hc, h7]
  rcases h8 : w.DeleteBucket n s7 with ⟨e | u, s8⟩
  · simp [Proc.bind, Proc.pure, sessionMust, emit, Res.prepend, listMyBuckets_run,
      createMyBucket_run, uploadObj_run, listObj_run, deleteMyBucket_run, h0, h1, h2, h4, h5, h6,
      hc, h7, h8]
  rcases h10 : w.ListBuckets (w.WaitUntilBucketNotExists n s8).2 with ⟨e | r3, s10⟩ <;>
    simp [Proc.bind, Proc.pure, sessionMust, emit, Res.prepend, listMyBuckets_run,
      createMyBucket_run, uploadObj_run, listObj_run, deleteMyBucket_run, h0, h1, h2, h4, h5, h6,
      hc, h7, h8, h10]

/-- On fewer than three arguments `main` writes the usage message to standard
output and exits with status 1. -/
theorem main_short {σ : Type} (w : World σ) (osArgs : List String) (s : σ)
    (h : osArgs.length < 3) :
    main w osArgs s = ⟨Step.exit 1, [Event.stdout usage], s⟩ := by
  have hu : Sprintf w.verbs usage [] = usage := Sprintf_plain _ _ (by decide)
  simp [usage] at hu
  simp [main, h, bind, Proc.bind, Printf, emit, osExit, Res.prepend, usage, hu]

/-- The two shapes of a run of `main`. -/
theorem main_cases {σ : Type} (w : World σ) (osArgs : List String) (s : σ) :
    (osArgs.length < 3 ∧ main w osArgs s = ⟨Step.exit 1, [Event.stdout usage], s⟩) ∨
    (∃ p n f rest, osArgs = p :: n :: f :: rest ∧ main w osArgs s = mainTree w n f s) := by
  match osArgs with
  | [] => exact Or.inl ⟨by simp, main_short w _ s (by simp)⟩
  | [_] => exact Or.inl ⟨by simp, main_short w _ s (by simp)⟩
  | [_, _] => exact Or.inl ⟨by simp, main_short w _ s (by simp)⟩
  | p :: n :: f :: rest => exact Or.inr ⟨p, n, f, rest, rfl, main_eq_mainTree w p n f rest s⟩


/-- The message of `exitErrorf` contains every text that occurs in its format
before the first `%`. -/
theorem errText_contains {σ : Type} (w : World σ) (msg needle : String) (args : List Arg)
    (h : needle.toList <:+: (msg ++ "\n").toList.takeWhile (fun c => c ≠ '%')) :
    containsText (errText w msg args) needle := by
  obtain ⟨tail, ht⟩ := Sprintf_literal w.verbs (msg ++ "\n") args
  unfold containsText errText
  rw [ht]
  exact h.trans (List.prefix_append _ _).isInfix

/-! ## The claims -/

/-- C2: with fewer than three entries in `os.Args` (zero or one user
argument), for every world, `main` exits with status 1, makes no call on the
storage client, and its only events are writes to standard output: no session
is built and no client is made. -/
theorem short_args_no_client_call {σ : Type} (w : World σ) (osArgs : List String) (s : σ)
    (h : osArgs.length < 3) :
    exitStatus (main w osArgs s).step = 1 ∧
    calls (main w osArgs s).trace = [] ∧
    (∀ ev ∈ (main w osArgs s).trace, ∃ text, ev = Event.stdout text) ∧
    (main w osArgs s).state = s := by
  rw [main_short w osArgs s h]
  simp [exitStatus, calls]

/-- An instance: one user argument. -/
theorem short_args_no_client_call_witness :
    exitStatus (main (scripted (fun _ => false) [] true) ["s3", "my-test-bucket"] 0).step = 1 ∧
    calls (main (scripted (fun _ => false) [] true) ["s3", "my-test-bucket"] 0).trace = [] ∧
    (∀ ev ∈ (main (scripted (fun _ => false) [] true) ["s3", "my-test-bucket"] 0).trace,
      ∃ text, ev = Event.stdout text) ∧
    (main (scripted (fun _ => false) [] true) ["s3", "my-test-bucket"] 0).state = 0 :=
  short_args_no_client_call _ _ _ (by decide)

/-- C3: in every run in which `CreateBucket` returns an error, a message
containing "Unable to create bucket" is written to standard error, the exit
status is 1, and the client calls of the run are exactly the first
`ListBuckets`, which succeeded, and the failed `CreateBucket`: no wait, upload,
listing of objects or delete is made. -/
theorem createBucket_error_stops {σ : Type} (w : World σ) (osArgs : List String) (s : σ)
    (n r : String) (e : GoError)
    (h : (Call.CreateBucket n r, some e) ∈ calls (main w osArgs s).trace) :
    (∃ msg, Event.stderr msg ∈ (main w osArgs s).trace ∧
      containsText msg "Unable to create bucket") ∧
    exitStatus (main w osArgs s).step = 1 ∧
    calls (main w osArgs s).trace =
      [(Call.ListBuckets, none), (Call.CreateBucket n r, some e)] := by
  rcases main_cases w osArgs s with ⟨_, hm⟩ | ⟨p, a, f, rest, rfl, hm⟩
  · rw [hm] at h
    simp [calls] at h
  · rw [hm] at h ⊢
    revert h
    unfold mainTree
    repeat' split
    all_goals simp [Res.prepend, calls, calls_append, calls_stdout, exitStatus]
    intro h1 h2 h3
    subst h1 h2 h3
    exact ⟨errText_contains w _ _ _ (by decide), by simp⟩

/-- An instance: the scripted world in which `CreateBucket` fails. -/
theorem createBucket_error_stops_witness :
    (∃ msg, Event.stderr msg ∈
        (main (scripted (fun i => i == 1) [] true) ["s3", "taken", "notes.txt"] 0).trace ∧
      containsText msg "Unable to create bucket") ∧
    exitStatus (main (scripted (fun i => i == 1) [] true) ["s3", "taken", "notes.txt"] 0).step
      = 1 ∧
    calls (main (scripted (fun i => i == 1) [] true) ["s3", "taken", "notes.txt"] 0).trace =
      [(Call.ListBuckets, none),
       (Call.CreateBucket "taken" "ap-southeast-2", some ⟨"BucketAlreadyExists"⟩)] :=
  createBucket_error_stops _ _ _ _ _ _ (by decide)

/-- C8, the code at the failing input: with the program name as the only
entry of `os.Args`, the run exits with status 1, the usage message is the one
text it wrote to standard output, and it wrote nothing to standard error. -/
theorem usage_goes_to_stdout :
    exitStatus (main (scripted (fun _ => false) [] true) ["s3"] 0).step = 1 ∧
    stdoutOf (main (scripted (fun _ => false) [] true) ["s3"] 0).trace = [usage] ∧
    stderrOf (main (scripted (fun _ => false) [] true) ["s3"] 0).trace = [] := by
  rw [main_short _ _ _ (by decide)]
  simp [exitStatus, stdoutOf, stderrOf]

/-- C5: in every run in which `os.Open` fails on the file `f`, the exit
status is 1 and the client calls of the run are exactly `ListBuckets`,
`CreateBucket` on the bucket `os.Args[1]` and its existence wait (whatever the
wait returned), where `f` is `os.Args[2]`: no upload, listing of objects or
delete is made, so the bucket just created stays. -/
theorem open_failure_leaves_bucket {σ : Type} (w : World σ) (osArgs : List String) (s : σ)
    (f : String) (h : Event.osOpen f none ∈ (main w osArgs s).trace) :
    exitStatus (main w osArgs s).step = 1 ∧
    ∃ n e1, osArgs.get? 1 = some n ∧ osArgs.get? 2 = some f ∧
      calls (main w osArgs s).trace =
        [(Call.ListBuckets, none), (Call.CreateBucket n "ap-southeast-2", none),
         (Call.WaitUntilBucketExists n, e1)] ∧
      (∀ c ∈ calls (main w osArgs s).trace, (∀ b k body, c.1 ≠ Call.Upload b k body) ∧
        (∀ b, c.1 ≠ Call.ListObjectsV2 b) ∧ ∀ b, c.1 ≠ Call.DeleteBucket b) := by
  rcases main_cases w osArgs s with ⟨_, hm⟩ | ⟨p, a, g, rest, rfl, hm⟩
  · rw [hm] at h
    simp at h
  · rw [hm] at h ⊢
    revert h
    unfold mainTree
    repeat' split
    all_goals simp [Res.prepend, calls, calls_append, calls_stdout, exitStatus, Region]
    exact fun h => h.symm

/-- An instance: the scripted world in which the file does not open. -/
theorem open_failure_leaves_bucket_witness :
    exitStatus (main (scripted (fun _ => false) [] false) ["s3", "b", "missing.txt"] 0).step
      = 1 ∧
    ∃ n e1, ["s3", "b", "missing.txt"].get? 1 = some n ∧
      ["s3", "b", "missing.txt"].get? 2 = some "missing.txt" ∧
      calls (main (scripted (fun _ => false) [] false) ["s3", "b", "missing.txt"] 0).trace =
        [(Call.ListBuckets, none), (Call.CreateBucket n "ap-southeast-2", none),
         (Call.WaitUntilBucketExists n, e1)] ∧
      (∀ c ∈ calls (main (scripted (fun _ => false) [] false)
          ["s3", "b", "missing.txt"] 0).trace,
        (∀ b k body, c.1 ≠ Call.Upload b k body) ∧
        (∀ b, c.1 ≠ Call.ListObjectsV2 b) ∧ ∀ b, c.1 ≠ Call.DeleteBucket b) :=
  open_failure_leaves_bucket _ _ _ _ (by decide)

/-- A failed call among `ListBuckets`, `Upload`, `ListObjectsV2` and
`DeleteBucket` occurs only as the last call of a run, the run then exits with
status 1, and after a failed `Upload` or `ListObjectsV2` there is no
`DeleteBucket`. -/
theorem checked_error_is_last {σ : Type} (w : World σ) (osArgs : List String) (s : σ) (c : Call)
    (e : GoError)
    (hc : c = Call.ListBuckets ∨ (∃ b k h, c = Call.Upload b k h) ∨
      (∃ b, c = Call.ListObjectsV2 b) ∨ (∃ b, c = Call.DeleteBucket b))
    (h : (c, some e) ∈ calls (main w osArgs s).trace) :
    (c, some e) ∉ (calls (main w osArgs s).trace).dropLast ∧
    exitStatus (main w osArgs s).step = 1 ∧
    (((∃ b k h, c = Call.Upload b k h) ∨ ∃ b, c = Call.ListObjectsV2 b) →
      ∀ b e2, (Call.DeleteBucket b, e2) ∉ calls (main w osArgs s).trace) := by
  rcases main_cases w osArgs s with ⟨_, hm⟩ | ⟨p, a, g, rest, rfl, hm⟩
  · rw [hm] at h
    simp [calls] at h
  · rw [hm] at h ⊢
    revert h
    unfold mainTree
    rcases hc with rfl | ⟨b, k, hd, rfl⟩ | ⟨b, rfl⟩ | ⟨b, rfl⟩
    all_goals repeat' split
    all_goals simp [Res.prepend, calls, calls_append, calls_stdout, exitStatus, List.dropLast]

/-- C6: when `ListBuckets` (at any of its three places), `Upload`,
`ListObjectsV2` or `DeleteBucket` returns an error, that call is the last
client call of the run (nothing follows it, so it is not made again and
nothing is rolled back) and the exit status is 1; when the failed call is
`Upload` or `ListObjectsV2`, the run has no `DeleteBucket` call at all. -/
theorem failFast {σ : Type} (w : World σ) (osArgs : List String) (s : σ) (c : Call)
    (e : GoError) (pre post : List (Call × Option GoError))
    (hc : c = Call.ListBuckets ∨ (∃ b k h, c = Call.Upload b k h) ∨
      (∃ b, c = Call.ListObjectsV2 b) ∨ (∃ b, c = Call.DeleteBucket b))
    (h : calls (main w osArgs s).trace = pre ++ (c, some e) :: post) :
    post = [] ∧
    exitStatus (main w osArgs s).step = 1 ∧
    (((∃ b k h, c = Call.Upload b k h) ∨ ∃ b, c = Call.ListObjectsV2 b) →
      ∀ b e2, (Call.DeleteBucket b, e2) ∉ calls (main w osArgs s).trace) := by
  have hmem : (c, some e) ∈ calls (main w osArgs s).trace := by
    rw [h]
    simp
  obtain ⟨h1, h2, h3⟩ := checked_error_is_last w osArgs s c e hc hmem
  exact ⟨nil_of_not_mem_dropLast h h1, h2, h3⟩

/-- An instance: the scripted world in which `Upload` fails. -/
theorem failFast_witness :
    ([] : List (Call × Option GoError)) = [] ∧
    exitStatus (main (scripted (fun i => i == 3) [] true) ["s3", "b", "f"] 0).step = 1 ∧
    (((∃ b k h, Call.Upload "b" "f" 3 = Call.Upload b k h) ∨
        ∃ b, Call.Upload "b" "f" 3 = Call.ListObjectsV2 b) →
      ∀ b e2, (Call.DeleteBucket b, e2) ∉
        calls (main (scripted (fun i => i == 3) [] true) ["s3", "b", "f"] 0).trace) :=
  failFast (scripted (fun i => i == 3) [] true) ["s3", "b", "f"] 0 (Call.Upload "b" "f" 3)
    ⟨"AccessDenied"⟩
    [(Call.ListBuckets, none), (Call.CreateBucket "b" "ap-southeast-2", none),
     (Call.WaitUntilBucketExists "b", none)] []
    (Or.inr (Or.inl ⟨"b", "f", 3, rfl⟩)) (by decide)


/-- The scripted world without failures is a world in which every call
succeeds. -/
theorem scripted_succeeds (objs : List Object) (openOk : Bool) :
    (scripted (fun _ => false) objs openOk).Succeeds where
  session := fun s => ⟨s, rfl⟩
  listBuckets := fun s => ⟨_, s + 1, rfl⟩
  createBucket := fun _ _ s => ⟨s + 1, rfl⟩
  waitUntilBucketExists := fun _ _ => rfl
  upload := fun _ _ _ s => ⟨s + 1, rfl⟩
  listObjectsV2 := fun _ s => ⟨_, s + 1, rfl⟩
  deleteBucket := fun _ s => ⟨s + 1, rfl⟩
  waitUntilBucketNotExists := fun _ _ => rfl

/-- The scripted world with `openOk` opens every file. -/
theorem scripted_opens (fails : Nat → Bool) (objs : List Object) (f : String) :
    (scripted fails objs true).Opens f :=
  fun s => ⟨3, s, rfl⟩

/-- The nil-dereference panic comes from the listing only: when the session
is built and the run ends in this panic, `ListObjectsV2` on the bucket has
answered, without error, with a response in which some entry lacks one of its
four fields. -/
theorem nilDeref_from_incomplete_entry {σ : Type} (w : World σ) (p n f : String)
    (rest : List String) (s : σ)
    (hsess : Event.newSession none ∈ (main w (p :: n :: f :: rest) s).trace)
    (hpanic : (main w (p :: n :: f :: rest) s).step = Step.panic nilDeref) :
    ∃ s1 resp s2, w.ListObjectsV2 n s1 = (Except.ok resp, s2) ∧
      resp.Contents.all Object.complete = false := by
  rw [main_eq_mainTree] at hsess hpanic
  revert hsess hpanic
  unfold mainTree
  repeat' split
  all_goals simp [Res.prepend]
  rename_i hresp hc
  exact ⟨_, _, ⟨_, hresp⟩, by simpa using hc⟩

/-- C1, as the code has it: on an argument vector with at least two user
arguments `n` and `f`, in every run in which the session is built, no call on
the storage client returns an error, the file `f` opens and `listObj` does
not panic on an absent field of a listed entry, the client calls of `main`
are exactly `ListBuckets`, `CreateBucket n "ap-southeast-2"`,
`WaitUntilBucketExists n`, `Upload` with bucket `n`, key `f` and the handle
that `os.Open f` returned as body, `ListObjectsV2 n`, `ListBuckets`,
`DeleteBucket n`, `WaitUntilBucketNotExists n`, `ListBuckets`, in this order,
and the exit status is 0.  The hypotheses speak of the run alone, so the
worlds may be stateful stores. -/
theorem complete_run_nine_calls {σ : Type} (w : World σ) (p n f : String)
    (rest : List String) (s : σ)
    (hsess : Event.newSession none ∈ (main w (p :: n :: f :: rest) s).trace)
    (hcalls : ∀ x ∈ calls (main w (p :: n :: f :: rest) s).trace, x.2 = none)
    (hopen : Event.osOpen f none ∉ (main w (p :: n :: f :: rest) s).trace)
    (hpanic : (main w (p :: n :: f :: rest) s).step ≠ Step.panic nilDeref) :
    ∃ h, Event.osOpen f (some h) ∈ (main w (p :: n :: f :: rest) s).trace ∧
      calls (main w (p :: n :: f :: rest) s).trace = nineCalls n f h none none ∧
      exitStatus (main w (p :: n :: f :: rest) s).step = 0 := by
  rw [main_eq_mainTree] at hsess hcalls hopen hpanic ⊢
  revert hsess hcalls hopen hpanic
  unfold mainTree
  repeat' split
  all_goals simp [Res.prepend, calls, calls_append, calls_stdout, exitStatus, nineCalls, Region]

/-- An instance: the in-memory store `memWorld` with one other bucket, on
which the run creates, fills, lists and deletes the bucket `demo`. -/
theorem complete_run_nine_calls_witness :
    ∃ h, Event.osOpen "notes.txt" (some h) ∈
        (main (memWorld false ["notes.txt"]) ["s3", "demo", "notes.txt"]
          [("other", ["a"])]).trace ∧
      calls (main (memWorld false ["notes.txt"]) ["s3", "demo", "notes.txt"]
          [("other", ["a"])]).trace = nineCalls "demo" "notes.txt" h none none ∧
      exitStatus (main (memWorld false ["notes.txt"]) ["s3", "demo", "notes.txt"]
          [("other", ["a"])]).step = 0 :=
  complete_run_nine_calls (memWorld false ["notes.txt"]) "s3" "demo" "notes.txt" []
    [("other", ["a"])] (by decide) (by decide) (by decide) (by decide)

/-- C1 as stated fails: in the scripted world where the session is built,
every client call returns a nil error and the file opens, but the one entry
that `ListObjectsV2` returns has no storage class, the run makes the first
five calls only and ends in a panic, with exit status 2. -/
theorem all_calls_succeed_yet_five_calls :
    (scripted (fun _ => false) [gapObject] true).Succeeds ∧
    (scripted (fun _ => false) [gapObject] true).Opens "f" ∧
    calls (main (scripted (fun _ => false) [gapObject] true) ["s3", "b", "f"] 0).trace =
      [(Call.ListBuckets, none), (Call.CreateBucket "b" "ap-southeast-2", none),
       (Call.WaitUntilBucketExists "b", none), (Call.Upload "b" "f" 3, none),
       (Call.ListObjectsV2 "b", none)] ∧
    (main (scripted (fun _ => false) [gapObject] true) ["s3", "b", "f"] 0).step =
      Step.panic nilDeref ∧
    exitStatus (main (scripted (fun _ => false) [gapObject] true) ["s3", "b", "f"] 0).step = 2 :=
  ⟨scripted_succeeds _ _, scripted_opens _ _ _, by decide, by decide, by decide⟩

/-- C4, the code at the failing inputs: when `WaitUntilBucketExists` returns
an error (first run), or `WaitUntilBucketNotExists` does (second run), and
every other call succeeds, the run makes all nine client calls, the upload
and the listing of objects, respectively the last `ListBuckets`, included,
and the exit status is 0. -/
theorem wait_error_is_dropped :
    (calls (main (scripted (fun i => i == 2) [fullObject] true) ["s3", "b", "f"] 0).trace =
        nineCalls "b" "f" 3 (some ⟨"ResourceNotReady"⟩) none ∧
      exitStatus (main (scripted (fun i => i == 2) [fullObject] true) ["s3", "b", "f"] 0).step
        = 0) ∧
    (calls (main (scripted (fun i => i == 7) [fullObject] true) ["s3", "b", "f"] 0).trace =
        nineCalls "b" "f" 3 none (some ⟨"ResourceNotReady"⟩) ∧
      exitStatus (main (scripted (fun i => i == 7) [fullObject] true) ["s3", "b", "f"] 0).step
        = 0) :=
  ⟨⟨by decide, by decide⟩, ⟨by decide, by decide⟩⟩

/-- C7, the code at the failing input: when the file opens as handle 3 and
`Upload` returns an error, the run exits with status 1 through `exitErrorf`
and its trace has the open of the file and no close of any handle. -/
theorem upload_error_skips_close :
    Event.osOpen "f" (some 3) ∈
      (main (scripted (fun i => i == 3) [] true) ["s3", "b", "f"] 0).trace ∧
    (main (scripted (fun i => i == 3) [] true) ["s3", "b", "f"] 0).step = Step.exit 1 ∧
    closes (main (scripted (fun i => i == 3) [] true) ["s3", "b", "f"] 0).trace = [] ∧
    closes (main (scripted (fun _ => false) [] true) ["s3", "b", "f"] 0).trace = [3] :=
  ⟨by decide, by decide, by decide, by decide⟩


/-! ## The in-memory storage model -/

/-- A store has no bucket `n` when no entry of it is named `n`. -/
theorem Store.hasBucket_false_iff (st : Store) (n : String) :
    Store.hasBucket st n = false ↔ ∀ b ∈ st, b.1 ≠ n := by
  simp [Store.hasBucket]

/-- Create, upload and delete of a bucket that was not there give back the
store. -/
theorem Store.delete_put_create (st : Store) (n key : String)
    (h : Store.hasBucket st n = false) :
    Store.delete (Store.put (Store.create st n) n key) n = st := by
  rw [Store.hasBucket_false_iff] at h
  have hmap : st.map (fun b => if b.1 = n then (b.1, key :: b.2) else b) = st := by
    conv_rhs => rw [← List.map_id st]
    apply List.map_congr_left
    intro b hb
    simp [h b hb]
  simp only [Store.delete, Store.put, Store.create, List.map_cons, if_true, hmap]
  rw [List.filter_cons_of_neg (by simp), List.filter_eq_self]
  intro b hb
  simpa using h b hb

/-- The world `memWorld` is an in-memory storage model. -/
theorem memWorld_inMemory (strict : Bool) (files : List String) :
    InMemory (memWorld strict files) where
  session := fun _ => rfl
  listBuckets := fun _ => rfl
  createBucket := by
    intro n r s
    simp only [memWorld]
    split <;> simp [errOf]
  waitUntilBucketExists := fun _ _ => rfl
  osOpen := fun _ _ => rfl
  upload := by
    intro n k h s
    simp only [memWorld]
    split <;> simp [errOf]
  listObjectsV2 := by
    intro n s
    simp only [memWorld]
    split <;> rfl
  deleteBucket := by
    intro n s
    simp only [memWorld]
    split
    · split <;> simp [errOf]
    · simp [errOf]
  waitUntilBucketNotExists := fun _ _ => rfl

/-- C9: against every in-memory storage model (a successful create adds the
bucket, a successful upload adds the object, a successful delete removes the
bucket, nothing else changes the store), for every bucket name `n` that the
initial store does not have and every file name `f`: when the run of `main`
ends with exit status 0, the final store is the initial store, and so has no
bucket `n`. -/
theorem successful_run_restores_store (w : World Store) (hw : InMemory w) (p n f : String)
    (rest : List String) (s : Store) (hn : Store.hasBucket s n = false)
    (hexit : exitStatus (main w (p :: n :: f :: rest) s).step = 0) :
    (main w (p :: n :: f :: rest) s).state = s ∧
    Store.hasBucket (main w (p :: n :: f :: rest) s).state n = false := by
  suffices hst : (main w (p :: n :: f :: rest) s).state = s by
    rw [hst]
    exact ⟨rfl, hn⟩
  rw [main_eq_mainTree] at hexit ⊢
  rcases h0 : w.NewSessionWithOptions s with ⟨e | u, s0⟩
  · simp [mainTree, h0, exitStatus] at hexit
  rcases h1 : w.ListBuckets s0 with ⟨e | r1, s1⟩
  · simp [mainTree, h0, h1, Res.prepend, exitStatus] at hexit
  rcases h2 : w.CreateBucket n Region s1 with ⟨e | u, s2⟩
  · simp [mainTree, h0, h1, h2, Res.prepend, exitStatus] at hexit
  rcases h4 : w.Open f (w.WaitUntilBucketExists n s2).2 with ⟨e | hd, s4⟩
  · simp [mainTree, h0, h1, h2, h4, Res.prepend, exitStatus] at hexit
  rcases h5 : w.Upload n f hd s4 with ⟨e | u, s5⟩
  · simp [mainTree, h0, h1, h2, h4, h5, Res.prepend, exitStatus] at hexit
  rcases h6 : w.ListObjectsV2 n s5 with ⟨e | resp, s6⟩
  · simp [mainTree, h0, h1, h2, h4, h5, h6, Res.prepend, exitStatus] at hexit
  by_cases hc : resp.Contents.all Object.complete
  swap
  · simp [mainTree, h0, h1, h2, h4, h5, h6, hc, Res.prepend, exitStatus] at hexit
  rcases h7 : w.ListBuckets s6 with ⟨e | r2, s7⟩
  · simp [mainTree, h0, h1, h2, h4, h5, h6, hc, h7, Res.prepend, exitStatus] at hexit
  rcases h8 : w.DeleteBucket n s7 with ⟨e | u, s8⟩
  · simp [mainTree, h0, h1, h2, h4, h5, h6, hc, h7, h8, Res.prepend, exitStatus] at hexit
  rcases h10 : w.ListBuckets (w.WaitUntilBucketNotExists n s8).2 with ⟨e | r3, s10⟩
  · simp [mainTree, h0, h1, h2, h4, h5, h6, hc, h7, h8, h10, Res.prepend, exitStatus] at hexit
  have e0 := hw.session s
  have e1 := hw.listBuckets s0
  have e2 := hw.createBucket n Region s1
  have e3 := hw.waitUntilBucketExists n s2
  have e4 := hw.osOpen f (w.WaitUntilBucketExists n s2).2
  have e5 := hw.upload n f hd s4
  have e6 := hw.listObjectsV2 n s5
  have e7 := hw.listBuckets s6
  have e8 := hw.deleteBucket n s7
  have e9 := hw.waitUntilBucketNotExists n s8
  have e10 := hw.listBuckets (w.WaitUntilBucketNotExists n s8).2
  rw [h0] at e0
  rw [h1] at e1
  rw [h2] at e2
  rw [h4] at e4
  rw [h5] at e5
  rw [h6] at e6
  rw [h7] at e7
  rw [h8] at e8
  rw [h10] at e10
  simp only [errOf, forall_const] at e0 e1 e2 e4 e5 e6 e7 e8 e10
  have hfinal : (mainTree w n f s).state = s10 := by
    simp [mainTree, h0, h1, h2, h4, h5, h6, hc, h7, h8, h10, Res.prepend]
  rw [hfinal, e10, e9, e8, e7, e6, e5, e4, e3, e2, e1, e0]
  exact Store.delete_put_create s n f hn

/-- An instance: `memWorld` without the strict delete, on a store with one
other bucket; the run ends with exit status 0. -/
theorem successful_run_restores_store_witness :
    (main (memWorld false ["notes.txt"]) ["s3", "demo", "notes.txt"]
        [("other", ["a"])]).state = [("other", ["a"])] ∧
    Store.hasBucket (main (memWorld false ["notes.txt"]) ["s3", "demo", "notes.txt"]
        [("other", ["a"])]).state "demo" = false :=
  successful_run_restores_store (memWorld false ["notes.txt"]) (memWorld_inMemory _ _)
    "s3" "demo" "notes.txt" [] [("other", ["a"])] (by decide) (by decide)


/-! ## The listing of objects -/

/-- The line of two operands. -/
theorem Sprintln_two (a b : String) : Sprintln [a, b] = a ++ " " ++ b ++ "\n" := rfl

/-- What `printObject` writes for a complete entry is its five lines. -/
theorem objectOut_complete (o : Object) (h : o.complete = true) : objectOut o = o.lines := by
  rcases o with ⟨k, t, z, c⟩
  cases k <;> cases t <;> cases z <;> cases c <;> simp [Object.complete] at h
  simp only [objectOut, Object.lines, Sprintln_two]
  have e1 : "Name:         " ++ " " = "Name:          " := by decide
  have e2 : "Last modified:" ++ " " = "Last modified: " := by decide
  have e3 : "Size:         " ++ " " = "Size:          " := by decide
  have e4 : "Storage class:" ++ " " = "Storage class: " := by decide
  rw [e1, e2, e3, e4]
  rfl

/-- What the loop writes for complete entries is their lines in order. -/
theorem objectsOut_complete (items : List Object) (h : items.all Object.complete = true) :
    objectsOut items = entriesLines items := by
  induction items with
  | nil => rfl
  | cons o os ih =>
    simp only [List.all_cons, Bool.and_eq_true] at h
    simp [objectsOut, entriesLines, objectOut_complete o h.1, h.1, ih h.2]

/-- The two lines after the loop, as texts. -/
theorem objectsTail_eq (n : String) (resp : ListObjectsV2Output) :
    objectsTail n resp =
      ["Found " ++ toString resp.Contents.length ++ " items in bucket " ++ n ++ "\n", "\n"] := by
  unfold objectsTail
  have e : Sprintln ["Found", toString resp.Contents.length, "items in bucket", n] =
      "Found" ++ " " ++ toString resp.Contents.length ++ " " ++ "items in bucket" ++ " " ++ n
        ++ "\n" := rfl
  have e1 : "Found" ++ " " = "Found " := by decide
  have e2 : " " ++ "items in bucket" ++ " " = " items in bucket " := by decide
  have e3 : Sprintln [""] = "\n" := by decide
  rw [e, e3, e1, ← e2]
  simp only [String.append_assoc]

/-- C10: after a successful `ListObjectsV2` with response `resp`: when every
entry has key, last-modified, size and storage class present, `listObj`
returns, and what it wrote to standard output is, for the entries in the order
returned, the five lines Name, Last modified, Size, Storage class and a blank,
then the line "Found N items in bucket <bucket>" with N the number of
entries, then a blank line; when some entry lacks one of the four fields,
`listObj` does not return: it panics on the nil dereference. -/
theorem listObj_prints {σ : Type} (w : World σ) (bucket : String) (s s1 : σ)
    (resp : ListObjectsV2Output) (h : w.ListObjectsV2 bucket s = (Except.ok resp, s1)) :
    (resp.Contents.all Object.complete = true →
      (listObj w bucket s).step = Step.ret () ∧
      stdoutOf (listObj w bucket s).trace =
        entriesLines resp.Contents ++
          ["Found " ++ toString resp.Contents.length ++ " items in bucket " ++ bucket ++ "\n",
           "\n"]) ∧
    (resp.Contents.all Object.complete = false →
      (listObj w bucket s).step = Step.panic nilDeref) := by
  rw [listObj_run, h]
  constructor
  · intro hc
    simp only [hc, if_true, stdoutOf, stdoutOf_stdout, objectsOut_complete _ hc, objectsTail_eq,
      and_self]
  · intro hc
    simp [hc]

/-- An instance: two complete entries, and three entries of which the second
lacks its storage class. -/
theorem listObj_prints_witness :
    ((listObj (scripted (fun _ => false) [fullObject, fullObject] true) "b" 4).step
        = Step.ret () ∧
      stdoutOf (listObj (scripted (fun _ => false) [fullObject, fullObject] true) "b" 4).trace =
        entriesLines [fullObject, fullObject] ++
          ["Found " ++ toString [fullObject, fullObject].length ++ " items in bucket " ++ "b"
            ++ "\n", "\n"]) ∧
    (listObj (scripted (fun _ => false) [fullObject, gapObject, fullObject] true) "b" 4).step
      = Step.panic nilDeref :=
  ⟨(listObj_prints (scripted (fun _ => false) [fullObject, fullObject] true) "b" 4 5
      ⟨[fullObject, fullObject]⟩ rfl).1 (by decide),
   (listObj_prints (scripted (fun _ => false) [fullObject, gapObject, fullObject] true) "b" 4 5
      ⟨[fullObject, gapObject, fullObject]⟩ rfl).2 (by decide)⟩

end S3Ops
